import Mathlib

set_option linter.unusedSectionVars false
set_option linter.unusedVariables false

/-!
Shallow embedding of the `plonk_gadgets` set/bit gadgets
(`src/bit.rs`, `src/set.rs`) over an abstract prime field `F`.

The external constraint-system collaborator (`StandardComposer` of
dusk-plonk) is modelled from the spec (section 6) as an explicit state:
a list of witness values (a `Variable` is an index into that list) and a
list of appended constraints.  The composer is threaded through every
gadget explicitly, and each gadget returns the mutated composer next to
its `Result`-like outcome, mirroring the `&mut` discipline of the code.
-/

section Embedding

variable {F : Type} [Field F] [DecidableEq F]

/-- Modelled from the spec (section 6): one appended constraint of the
external constraint system.  `arith` is the generic fused "poly" gate
`qm*a*b + ql*a + qr*b + qo*c + qc + pi = 0`; `assertEq` is the equality
assertion; `fixed` is fix-to-constant with an optional public-input
offset (`none` is represented by `0`), enforcing `a - constant + pi = 0`. -/
inductive Gate (F : Type) where
  | arith (a b c : Nat) (qm ql qr qo qc pi : F)
  | assertEq (a b : Nat)
  | fixed (a : Nat) (constant : F) (pi : F)
  deriving DecidableEq

/-- Modelled from the spec (section 6): the external `StandardComposer`
state visible to the gadgets: allocated witness values and appended
gates.  Variable `i` is bound to `witnesses[i]`. -/
structure Composer (F : Type) where
  witnesses : List F
  gates : List (Gate F)
  deriving DecidableEq

/-- A fresh composer: only the designated zero variable is allocated. -/
def Composer.init : Composer F := ⟨[0], []⟩

/-- Value bound to variable `i` (out-of-range reads default to `0`). -/
def Composer.wget (c : Composer F) (i : Nat) : F := c.witnesses.getD i 0

/-- The designated zero-constant variable (`composer.zero_var()`). -/
def Composer.zeroVar (_c : Composer F) : Nat := 0

/-- `composer.add_input(v)`: allocate a fresh witness, return its variable. -/
def Composer.addInput (c : Composer F) (v : F) : Composer F × Nat :=
  (⟨c.witnesses ++ [v], c.gates⟩, c.witnesses.length)

def Composer.appendGate (c : Composer F) (g : Gate F) : Composer F :=
  ⟨c.witnesses, c.gates ++ [g]⟩

/-- `composer.constrain_to_constant(a, k, pi)`. -/
def Composer.constrainToConstant (c : Composer F) (a : Nat) (k : F) (pi : Option F) :
    Composer F :=
  c.appendGate (Gate.fixed a k (pi.getD 0))

/-- `composer.add((ql, a), (qr, b), qc, pi)`: allocates the output wire
bound to the computed combination and appends the add gate. -/
def Composer.add (c : Composer F) (ql : F) (a : Nat) (qr : F) (b : Nat) (qc : F)
    (pi : Option F) : Composer F × Nat :=
  let r := c.addInput (ql * c.wget a + qr * c.wget b + qc + pi.getD 0)
  (r.1.appendGate (Gate.arith a b r.2 0 ql qr (-1) qc (pi.getD 0)), r.2)

/-- `composer.mul(qm, a, b, qc, pi)`. -/
def Composer.mul (c : Composer F) (qm : F) (a b : Nat) (qc : F) (pi : Option F) :
    Composer F × Nat :=
  let r := c.addInput (qm * c.wget a * c.wget b + qc + pi.getD 0)
  (r.1.appendGate (Gate.arith a b r.2 qm 0 0 (-1) qc (pi.getD 0)), r.2)

/-- `composer.assert_equal(a, b)`. -/
def Composer.assertEqual (c : Composer F) (a b : Nat) : Composer F :=
  c.appendGate (Gate.assertEq a b)

/-- `composer.poly_gate(a, b, cw, qm, ql, qr, qo, qc, pi)`. -/
def Composer.polyGate (c : Composer F) (a b cw : Nat) (qm ql qr qo qc : F)
    (pi : Option F) : Composer F :=
  c.appendGate (Gate.arith a b cw qm ql qr qo qc (pi.getD 0))

/-- `composer.add_witness_to_circuit_description(v)`: allocate a witness
and fix it to the constant `v`. -/
def Composer.addWitnessToCircuitDescription (c : Composer F) (v : F) :
    Composer F × Nat :=
  let r := c.addInput v
  (r.1.constrainToConstant r.2 v none, r.2)

/-- Modelled from the spec (section 3): the witness binder
`AllocatedScalar { scalar, var }`, defined by the repository outside
`src/` and used by every gadget. -/
structure AllocatedScalar (F : Type) where
  scalar : F
  var : Nat
  deriving DecidableEq

/-- Modelled from the spec (section 6): `AllocatedScalar::allocate`. -/
def AllocatedScalar.allocate (c : Composer F) (s : F) :
    Composer F × AllocatedScalar F :=
  let r := c.addInput s
  (r.1, ⟨s, r.2⟩)

/-- Modelled from the spec (section 7): the single gadget error kind,
`Error::NonExistingInverse`, defined by the repository outside `src/`. -/
inductive GadgetsError where
  | NonExistingInverse
  deriving DecidableEq

/-- Outcome of a gadget call: `ok` for `Ok(())`, `err` for `Err(_)`, and
`panicked` for a failed `assert!`-style contract check (a Rust panic).
The composer state at the exit point is returned alongside. -/
inductive GOutcome where
  | ok
  | err (e : GadgetsError)
  | panicked
  deriving DecidableEq

/-- Whether one gate is satisfied by a witness assignment. -/
def Gate.holds (w : List F) : Gate F → Prop
  | Gate.arith a b c qm ql qr qo qc pi =>
      qm * w.getD a 0 * w.getD b 0 + ql * w.getD a 0 + qr * w.getD b 0 +
        qo * w.getD c 0 + qc + pi = 0
  | Gate.assertEq a b => w.getD a 0 = w.getD b 0
  | Gate.fixed a k pi => w.getD a 0 - k + pi = 0

instance (w : List F) : DecidablePred (Gate.holds w) := fun g => by
  cases g <;> simp only [Gate.holds] <;> infer_instance

/-- All appended constraints hold under the composer's own witnesses. -/
def Composer.satisfied (c : Composer F) : Prop :=
  ∀ g ∈ c.gates, Gate.holds c.witnesses g

instance (c : Composer F) : Decidable c.satisfied :=
  List.decidableBAll _ _

/-- Embedding of `bit_gadget` (src/bit.rs): constrain `x` to be a bit. -/
def bit_gadget (composer : Composer F) (x : AllocatedScalar F) :
    Composer F × GOutcome :=
  let r1 := AllocatedScalar.allocate composer (1 - x.scalar)
  let one_minus_x := r1.2
  let r2 := Composer.add r1.1 1 one_minus_x.var 1 x.var 0 none
  let c2 := Composer.constrainToConstant r2.1 r2.2 1 none
  let c3 := Composer.polyGate c2 x.var one_minus_x.var c2.zeroVar 1 0 0 0 0 none
  (c3, GOutcome.ok)

/-- Embedding of `vector_non_membership_gadget` (src/set.rs): constrain
`value` to not be a member of the (public) `vector`. -/
def vector_non_membership_gadget (composer : Composer F) (vector : List F)
    (value : AllocatedScalar F) : Composer F × GOutcome :=
  match vector with
  | [] => (composer, GOutcome.ok)
  | elem :: rest =>
    let r1 := composer.addInput elem
    let c2 := r1.1.constrainToConstant r1.2 elem none
    let diff := elem - value.scalar
    let r3 := AllocatedScalar.allocate c2 diff
    if diff = 0 then
      (r3.1, GOutcome.err GadgetsError.NonExistingInverse)
    else
      let r4 := AllocatedScalar.allocate r3.1 diff⁻¹
      let r5 := Composer.add r4.1 1 r3.2.var 1 value.var 0 none
      let c6 := r5.1.assertEqual r5.2 r1.2
      let r7 := c6.addWitnessToCircuitDescription 1
      let c8 := r7.1.polyGate r3.2.var r4.2.var r7.2 1 0 0 (-1) 0 none
      vector_non_membership_gadget c8 rest value

/-- The accumulator fold of `vector_sum_gadget`: repeated two-input
addition gates starting from `acc`. -/
def sumLoop : Composer F → Nat → List (AllocatedScalar F) → Composer F × Nat
  | c, acc, [] => (c, acc)
  | c, acc, x :: rest =>
    let r := Composer.add c 1 acc 1 x.var 0 none
    sumLoop r.1 r.2 rest

/-- Embedding of `vector_sum_gadget` (src/set.rs): constrain the sum of
the vector's elements to `expected_sum` (a `u64`, modelled as `Nat`),
placed as a public-input offset. -/
def vector_sum_gadget (composer : Composer F) (vector : List (AllocatedScalar F))
    (expected_sum : Nat) : Composer F × GOutcome :=
  let r := sumLoop composer composer.zeroVar vector
  let c2 := r.1.constrainToConstant r.2 0 (some (-(expected_sum : F)))
  (c2, GOutcome.ok)

/-- The gate shape emitted by `Composer.add` with both coefficients `1`
and no constant: a plain two-input addition gate (the "tying" linear
gate of the difference gadgets and the fold gate of the sum gadget). -/
def isAddGate : Gate F → Bool
  | Gate.arith _ _ _ qm ql qr qo qc pi =>
      decide (qm = 0 ∧ ql = 1 ∧ qr = 1 ∧ qo = -1 ∧ qc = 0 ∧ pi = 0)
  | _ => false

/-- The gate shape emitted by the nonzero-enforcing fused `poly_gate`
call (`diff * diff_inv - one = 0`). -/
def isFusedNonzeroGate : Gate F → Bool
  | Gate.arith _ _ _ qm ql qr qo qc pi =>
      decide (qm = 1 ∧ ql = 0 ∧ qr = 0 ∧ qo = -1 ∧ qc = 0 ∧ pi = 0)
  | _ => false

/-- The designated zero variable is allocated and bound to `0` (an
invariant of every live dusk-plonk composer, true of `Composer.init`). -/
def Composer.zeroVarOk (c : Composer F) : Prop :=
  0 < c.witnesses.length ∧ c.wget c.zeroVar = 0

/-- The three gates `bit_gadget` appends, in order, when called on a
composer holding `n` witnesses: the consistency add gate for
`x + (1 - x)`, the fixing of that sum to `1`, and the booleanity poly
gate `x * (1 - x) = 0`. -/
def bitGates (n xvar : Nat) : List (Gate F) :=
  [Gate.arith n xvar (n + 1) 0 1 1 (-1) 0 0,
   Gate.fixed (n + 1) 1 0,
   Gate.arith xvar n 0 1 0 0 0 0 0]

/-- The per-pair loop body of `vector_product_gadget` (src/set.rs):
`vector[i] * bits[i]`, `value * bits[i]`, the equality of the two, and
the accumulation of the left product. -/
def prodLoop : Composer F → Nat → AllocatedScalar F →
    List (AllocatedScalar F × AllocatedScalar F) → Composer F × Nat
  | c, acc, _value, [] => (c, acc)
  | c, acc, value, (vi, bi) :: rest =>
    let left := Composer.mul c 1 vi.var bi.var 0 none
    let right := Composer.mul left.1 1 value.var bi.var 0 none
    let c3 := right.1.assertEqual left.2 right.2
    let r4 := Composer.add c3 1 acc 1 left.2 0 none
    prodLoop r4.1 r4.2 value rest

/-- Embedding of `vector_product_gadget` (src/set.rs).  The leading
`assert_eq!` on the two lengths is modelled as the `panicked` outcome
with the composer untouched. -/
def vector_product_gadget (composer : Composer F)
    (vector bits_vector : List (AllocatedScalar F)) (value : AllocatedScalar F) :
    Composer F × GOutcome :=
  if vector.length = bits_vector.length then
    let r := prodLoop composer composer.zeroVar value (vector.zip bits_vector)
    let c2 := r.1.assertEqual r.2 value.var
    (c2, GOutcome.ok)
  else (composer, GOutcome.panicked)

/-- The element-fixing loop of `set_membership_gadget`: allocate each
(public) set element and constrain it to its constant. -/
def assignSetLoop : Composer F → List F → Composer F × List (AllocatedScalar F)
  | c, [] => (c, [])
  | c, e :: rest =>
    let r := AllocatedScalar.allocate c e
    let c2 := r.1.constrainToConstant r.2.var e none
    let rr := assignSetLoop c2 rest
    (rr.1, r.2 :: rr.2)

/-- The indicator-allocation loop of `set_membership_gadget`: allocate
each indicator value and run `bit_gadget` on it.  The surrounding
`assert!(bit_gadget(..).is_ok())` is modelled by sequencing, since
`bit_gadget`'s outcome is `ok` by construction. -/
def allocBitsLoop : Composer F → List F → Composer F × List (AllocatedScalar F)
  | c, [] => (c, [])
  | c, b :: rest =>
    let r := AllocatedScalar.allocate c b
    let c2 := (bit_gadget r.1 r.2).1
    let rr := allocBitsLoop c2 rest
    (rr.1, r.2 :: rr.2)

/-- The `assert!(gadget(..).is_ok())` pattern of `set_membership_gadget`:
continue with the mutated composer when the sub-gadget returned `Ok`,
panic (keeping the composer) otherwise. -/
def requireOk : Composer F × GOutcome → (Composer F → Composer F × GOutcome) →
    Composer F × GOutcome
  | (c, GOutcome.ok), k => k c
  | (c, _), _k => (c, GOutcome.panicked)

/-- Embedding of `set_membership_gadget` (src/set.rs): fix the (public)
set elements, compute and bit-constrain the indicator vector, constrain
the indicator sum to `1`, and run `vector_product_gadget`.  The
`assert!(..is_ok())` wrappers are modelled by `requireOk`. -/
def set_membership_gadget (composer : Composer F) (vector : List F)
    (assigned_value : AllocatedScalar F) : Composer F × GOutcome :=
  let ra := assignSetLoop composer vector
  let bit_map : List F :=
    vector.map (fun e => if e = assigned_value.scalar then 1 else 0)
  let rb := allocBitsLoop ra.1 bit_map
  requireOk (vector_sum_gadget rb.1 rb.2 1) fun c3 =>
    requireOk (vector_product_gadget c3 ra.2 rb.2 assigned_value) fun c4 =>
      (c4, GOutcome.ok)

/-- Modelled from the spec (section 4.5), for comparison only: the
public-set membership variant as claim C3 reads it — element fixing,
bit-constrained indicators, indicator sum fixed to `1`, and *no*
Product/Tie-Back step. -/
def set_membership_no_product (composer : Composer F) (vector : List F)
    (assigned_value : AllocatedScalar F) : Composer F × GOutcome :=
  let ra := assignSetLoop composer vector
  let bit_map : List F :=
    vector.map (fun e => if e = assigned_value.scalar then 1 else 0)
  let rb := allocBitsLoop ra.1 bit_map
  requireOk (vector_sum_gadget rb.1 rb.2 1) fun c3 => (c3, GOutcome.ok)

/-- The constraint block emitted for one difference/inverse pair of
`set_uniqueness_gadget` (src/set.rs), after `diff` and `diff_inv` are
allocated: the tying add gate `diff + vector[j]`, the equality of that
sum with `vector[i]`, the fixed `one` witness, and the nonzero-enforcing
fused gate `diff * diff_inv - one = 0`. -/
def diffCheckGates (c : Composer F) (viVar vjVar diffVar diffInvVar : Nat) :
    Composer F :=
  let r3 := Composer.add c 1 diffVar 1 vjVar 0 none
  let c4 := r3.1.assertEqual r3.2 viVar
  let r5 := c4.addWitnessToCircuitDescription 1
  r5.1.polyGate diffVar diffInvVar r5.2 1 0 0 (-1) 0 none

/-- The inner loop of `set_uniqueness_gadget`: pair `vi` (element `i`)
with every later element `vj`. -/
def uniqInner : Composer F → AllocatedScalar F → List (AllocatedScalar F) →
    Composer F × GOutcome
  | c, _vi, [] => (c, GOutcome.ok)
  | c, vi, vj :: rest =>
    let diff := vi.scalar - vj.scalar
    let r1 := AllocatedScalar.allocate c diff
    if diff = 0 then
      (r1.1, GOutcome.err GadgetsError.NonExistingInverse)
    else
      let r2 := AllocatedScalar.allocate r1.1 diff⁻¹
      uniqInner (diffCheckGates r2.1 vi.var vj.var r1.2.var r2.2.var) vi rest

/-- The outer loop of `set_uniqueness_gadget` over the first index `i`,
propagating an inner error immediately. -/
def uniqOuter : Composer F → List (AllocatedScalar F) → Composer F × GOutcome
  | c, [] => (c, GOutcome.ok)
  | c, vi :: rest =>
    match uniqInner c vi rest with
    | (c', GOutcome.ok) => uniqOuter c' rest
    | r => r

/-- Embedding of `set_uniqueness_gadget` (src/set.rs): constrain all
elements of a private vector to be pairwise distinct.  The leading
`assert!(length >= 2, ..)` is modelled as the `panicked` outcome with
the composer untouched. -/
def set_uniqueness_gadget (composer : Composer F)
    (vector : List (AllocatedScalar F)) : Composer F × GOutcome :=
  if vector.length < 2 then (composer, GOutcome.panicked)
  else uniqOuter composer vector

/-- Number of unordered index pairs `i < j` of a list, in the order the
uniqueness gadget processes them. -/
def pairCount {α : Type} : List α → Nat
  | [] => 0
  | _ :: rest => rest.length + pairCount rest

/-- `c'` is `c` with zero or more witnesses and gates appended: the
composer-mutation discipline of every gadget (constraints are only ever
appended, never removed or edited). -/
def Composer.Ext (c c' : Composer F) : Prop :=
  (∃ u, c'.witnesses = c.witnesses ++ u) ∧ (∃ t, c'.gates = c.gates ++ t)

/-- The indicator binders `set_membership_gadget` allocates: the bits of
the computed `bit_map`, allocated after the element-fixing stage. -/
def membershipBits (c : Composer F) (v : List F) (val : AllocatedScalar F) :
    List (AllocatedScalar F) :=
  (allocBitsLoop (assignSetLoop c v).1
    (v.map fun e => if e = val.scalar then (1 : F) else 0)).2

end Embedding

instance : Fact (Nat.Prime 11) := ⟨by norm_num⟩

section Infra

variable {F : Type} [Field F] [DecidableEq F]

theorem wget_append_lt (w u : List F) (i : Nat) (h : i < w.length) :
    (w ++ u).getD i 0 = w.getD i 0 := by
  simp [List.getD, List.getElem?_append_left h]

theorem wget_append_at (w : List F) (a : F) (u : List F) :
    (w ++ a :: u).getD w.length 0 = a := by
  simp [List.getD, List.getElem?_append_right (Nat.le_refl _)]

theorem wget_append_at2 (w : List F) (a b : F) (u : List F) :
    (w ++ a :: b :: u).getD (w.length + 1) 0 = b := by
  have h := wget_append_at (w ++ [a]) b u
  have e : (w ++ [a]) ++ b :: u = w ++ a :: b :: u := by simp
  have l : (w ++ [a]).length = w.length + 1 := by simp
  rw [e, l] at h
  exact h

theorem Ext_refl (c : Composer F) : c.Ext c :=
  ⟨⟨[], by simp⟩, ⟨[], by simp⟩⟩

theorem Ext_trans {c c' c'' : Composer F} (h1 : c.Ext c') (h2 : c'.Ext c'') :
    c.Ext c'' := by
  obtain ⟨⟨u1, hu1⟩, ⟨t1, ht1⟩⟩ := h1
  obtain ⟨⟨u2, hu2⟩, ⟨t2, ht2⟩⟩ := h2
  exact ⟨⟨u1 ++ u2, by rw [hu2, hu1, List.append_assoc]⟩,
    ⟨t1 ++ t2, by rw [ht2, ht1, List.append_assoc]⟩⟩

theorem Ext_addInput (c : Composer F) (v : F) : c.Ext (c.addInput v).1 :=
  ⟨⟨[v], rfl⟩, ⟨[], by simp [Composer.addInput]⟩⟩

theorem Ext_appendGate (c : Composer F) (g : Gate F) : c.Ext (c.appendGate g) :=
  ⟨⟨[], by simp [Composer.appendGate]⟩, ⟨[g], rfl⟩⟩

theorem Ext_constrainToConstant (c : Composer F) (a : Nat) (k : F) (pi : Option F) :
    c.Ext (c.constrainToConstant a k pi) :=
  Ext_appendGate c _

theorem Ext_add (c : Composer F) (ql : F) (a : Nat) (qr : F) (b : Nat) (qc : F)
    (pi : Option F) : c.Ext (Composer.add c ql a qr b qc pi).1 :=
  Ext_trans (Ext_addInput c _) (Ext_appendGate _ _)

theorem Ext_mul (c : Composer F) (qm : F) (a b : Nat) (qc : F) (pi : Option F) :
    c.Ext (Composer.mul c qm a b qc pi).1 :=
  Ext_trans (Ext_addInput c _) (Ext_appendGate _ _)

theorem Ext_assertEqual (c : Composer F) (a b : Nat) : c.Ext (c.assertEqual a b) :=
  Ext_appendGate c _

theorem Ext_polyGate (c : Composer F) (a b cw : Nat) (qm ql qr qo qc : F)
    (pi : Option F) : c.Ext (c.polyGate a b cw qm ql qr qo qc pi) :=
  Ext_appendGate c _

theorem Ext_addWitness (c : Composer F) (v : F) :
    c.Ext (c.addWitnessToCircuitDescription v).1 :=
  Ext_trans (Ext_addInput c _) (Ext_appendGate _ _)

theorem Ext_allocate (c : Composer F) (s : F) :
    c.Ext (AllocatedScalar.allocate c s).1 :=
  Ext_addInput c s

theorem Ext_addInput' {c c' : Composer F} (v : F) (h : c.Ext c') :
    c.Ext (c'.addInput v).1 :=
  Ext_trans h (Ext_addInput c' v)

theorem Ext_constrainToConstant' {c c' : Composer F} (a : Nat) (k : F)
    (pi : Option F) (h : c.Ext c') : c.Ext (c'.constrainToConstant a k pi) :=
  Ext_trans h (Ext_constrainToConstant c' a k pi)

theorem Ext_add' {c c' : Composer F} (ql : F) (a : Nat) (qr : F) (b : Nat) (qc : F)
    (pi : Option F) (h : c.Ext c') : c.Ext (Composer.add c' ql a qr b qc pi).1 :=
  Ext_trans h (Ext_add c' ql a qr b qc pi)

theorem Ext_mul' {c c' : Composer F} (qm : F) (a b : Nat) (qc : F) (pi : Option F)
    (h : c.Ext c') : c.Ext (Composer.mul c' qm a b qc pi).1 :=
  Ext_trans h (Ext_mul c' qm a b qc pi)

theorem Ext_assertEqual' {c c' : Composer F} (a b : Nat) (h : c.Ext c') :
    c.Ext (c'.assertEqual a b) :=
  Ext_trans h (Ext_assertEqual c' a b)

theorem Ext_polyGate' {c c' : Composer F} (a b cw : Nat) (qm ql qr qo qc : F)
    (pi : Option F) (h : c.Ext c') : c.Ext (c'.polyGate a b cw qm ql qr qo qc pi) :=
  Ext_trans h (Ext_polyGate c' a b cw qm ql qr qo qc pi)

theorem Ext_addWitness' {c c' : Composer F} (v : F) (h : c.Ext c') :
    c.Ext (c'.addWitnessToCircuitDescription v).1 :=
  Ext_trans h (Ext_addWitness c' v)

theorem Ext_allocate' {c c' : Composer F} (s : F) (h : c.Ext c') :
    c.Ext (AllocatedScalar.allocate c' s).1 :=
  Ext_trans h (Ext_allocate c' s)

theorem Ext_len {c c' : Composer F} (h : c.Ext c') :
    c.witnesses.length ≤ c'.witnesses.length := by
  obtain ⟨⟨u, hu⟩, _⟩ := h
  rw [hu]; simp

theorem Ext_wget {c c' : Composer F} (h : c.Ext c') (i : Nat)
    (hi : i < c.witnesses.length) : c'.wget i = c.wget i := by
  obtain ⟨⟨u, hu⟩, _⟩ := h
  show c'.witnesses.getD i 0 = c.witnesses.getD i 0
  rw [hu]
  exact wget_append_lt _ _ _ hi

theorem Ext_gate_mem {c c' : Composer F} (h : c.Ext c') {g : Gate F}
    (hg : g ∈ c.gates) : g ∈ c'.gates := by
  obtain ⟨_, ⟨t, ht⟩⟩ := h
  rw [ht]
  exact List.mem_append_left _ hg

theorem Ext_zeroVarOk {c c' : Composer F} (h : c.Ext c') (h0 : c.zeroVarOk) :
    c'.zeroVarOk :=
  ⟨Nat.lt_of_lt_of_le h0.1 (Ext_len h), by
    show c'.wget 0 = 0
    rw [Ext_wget h 0 h0.1]
    exact h0.2⟩

end Infra

section C4Proof

variable {F : Type} [Field F] [DecidableEq F]

theorem bit_gadget_eq (c : Composer F) (x : AllocatedScalar F) :
    bit_gadget c x =
      (⟨c.witnesses ++ [1 - x.scalar,
          1 * (c.witnesses ++ [1 - x.scalar]).getD c.witnesses.length 0 +
            1 * (c.witnesses ++ [1 - x.scalar]).getD x.var 0 + 0 + 0],
        c.gates ++ bitGates c.witnesses.length x.var⟩, GOutcome.ok) := by
  simp [bit_gadget, AllocatedScalar.allocate, Composer.add, Composer.addInput,
    Composer.appendGate, Composer.constrainToConstant, Composer.polyGate,
    Composer.zeroVar, Composer.wget, bitGates]

/-- C4: `bit_gadget` always returns `Ok`, allocates a witness bound to
`1 - x.scalar`, constrains `x` plus that witness to equal `1` and `x`
times that witness to equal `0`, and the appended constraints hold under
the composer's witnesses exactly when `x.scalar` is `0` or `1`. -/
theorem bit_gadget_spec (c : Composer F) (x : AllocatedScalar F)
    (h1 : x.var < c.witnesses.length) (h2 : c.wget x.var = x.scalar) :
    ∃ c', bit_gadget c x = (c', GOutcome.ok) ∧
      c'.witnesses = c.witnesses ++ [1 - x.scalar, (1 - x.scalar) + x.scalar] ∧
      c'.gates = c.gates ++ bitGates c.witnesses.length x.var ∧
      c'.wget c.witnesses.length = 1 - x.scalar ∧
      ((∀ g ∈ bitGates (F := F) c.witnesses.length x.var, Gate.holds c'.witnesses g) ↔
        (x.scalar = 0 ∨ x.scalar = 1)) := by
  have h2' : c.witnesses.getD x.var 0 = x.scalar := h2
  have hx1 : (c.witnesses ++ [1 - x.scalar]).getD x.var 0 = x.scalar := by
    rw [wget_append_lt _ _ _ h1]; exact h2'
  have hm : (c.witnesses ++ [1 - x.scalar]).getD c.witnesses.length 0 = 1 - x.scalar :=
    wget_append_at _ _ _
  have hC : bit_gadget c x =
      (⟨c.witnesses ++ [1 - x.scalar, (1 - x.scalar) + x.scalar],
        c.gates ++ bitGates c.witnesses.length x.var⟩, GOutcome.ok) := by
    rw [bit_gadget_eq, hm, hx1]
    simp only [one_mul, add_zero]
  have hw1 : ((c.witnesses ++ [1 - x.scalar, (1 - x.scalar) + x.scalar]).getD
      x.var 0) = x.scalar := by
    rw [wget_append_lt _ _ _ h1]; exact h2'
  have hw2 : ((c.witnesses ++ [1 - x.scalar, (1 - x.scalar) + x.scalar]).getD
      c.witnesses.length 0) = 1 - x.scalar := wget_append_at _ _ _
  have hw3 : ((c.witnesses ++ [1 - x.scalar, (1 - x.scalar) + x.scalar]).getD
      (c.witnesses.length + 1) 0) = (1 - x.scalar) + x.scalar :=
    wget_append_at2 _ _ _ _
  refine ⟨_, hC, rfl, rfl, hw2, ?_⟩
  constructor
  · intro hg
    have h3 := hg (Gate.arith x.var c.witnesses.length 0 1 0 0 0 0 0) (by
      simp [bitGates])
    simp only [Gate.holds] at h3
    rw [hw1, hw2] at h3
    have h4 : x.scalar * (1 - x.scalar) = 0 := by linear_combination h3
    rcases mul_eq_zero.mp h4 with h5 | h5
    · exact Or.inl h5
    · exact Or.inr (by linear_combination -h5)
  · intro hx g hg
    simp only [bitGates, List.mem_cons, List.not_mem_nil, or_false] at hg
    rcases hg with rfl | rfl | rfl
    · simp only [Gate.holds]
      rw [hw1, hw2, hw3]; ring
    · simp only [Gate.holds]
      rw [hw3]; ring
    · simp only [Gate.holds]
      rw [hw1, hw2]
      rcases hx with h | h <;> rw [h] <;> ring

theorem bit_gadget_spec_witness :
    ((1 : Nat) < (⟨[0, 1], []⟩ : Composer (ZMod 11)).witnesses.length) ∧
      ∃ c', bit_gadget (⟨[0, 1], []⟩ : Composer (ZMod 11)) ⟨1, 1⟩ =
          (c', GOutcome.ok) ∧
        c'.witnesses = [0, 1] ++ [1 - 1, (1 - 1) + 1] ∧
        c'.gates = [] ++ bitGates 2 1 ∧
        c'.wget 2 = 1 - 1 ∧
        ((∀ g ∈ bitGates (F := ZMod 11) 2 1, Gate.holds c'.witnesses g) ↔
          ((1 : ZMod 11) = 0 ∨ (1 : ZMod 11) = 1)) :=
  ⟨by decide, bit_gadget_spec ⟨[0, 1], []⟩ ⟨1, 1⟩ (by decide) (by decide)⟩

end C4Proof

section C1Proof

variable {F : Type} [Field F] [DecidableEq F]

theorem vector_non_membership_outcome (c : Composer F) (v : List F)
    (value : AllocatedScalar F) :
    (vector_non_membership_gadget c v value).2 =
      if value.scalar ∈ v then GOutcome.err GadgetsError.NonExistingInverse
      else GOutcome.ok := by
  induction v generalizing c with
  | nil => simp [vector_non_membership_gadget]
  | cons e rest ih =>
    by_cases he : e = value.scalar
    · have hd : e - value.scalar = 0 := by rw [he, sub_self]
      simp [vector_non_membership_gadget, hd, he, List.mem_cons]
    · have hd : e - value.scalar ≠ 0 := sub_ne_zero.mpr he
      have hne : ¬ value.scalar = e := fun h => he h.symm
      simp [vector_non_membership_gadget, hd, ih, List.mem_cons, hne]

/-- C1: `vector_non_membership_gadget` returns `NonExistingInverse` exactly
when some element of the vector equals `value.scalar` (its difference with
`value` is zero and has no field inverse); for every vector none of whose
elements equals `value.scalar` it returns `Ok`. -/
theorem vector_non_membership_error_iff (c : Composer F) (v : List F)
    (value : AllocatedScalar F) :
    ((vector_non_membership_gadget c v value).2 =
        GOutcome.err GadgetsError.NonExistingInverse ↔ ∃ e ∈ v, e = value.scalar)
    ∧ (value.scalar ∉ v →
        (vector_non_membership_gadget c v value).2 = GOutcome.ok) := by
  have h := vector_non_membership_outcome c v value
  by_cases hm : value.scalar ∈ v
  · rw [h, if_pos hm]
    exact ⟨⟨fun _ => ⟨value.scalar, hm, rfl⟩, fun _ => rfl⟩, fun hn => absurd hm hn⟩
  · rw [h, if_neg hm]
    refine ⟨⟨fun hc => absurd hc (by simp), ?_⟩, fun _ => rfl⟩
    rintro ⟨e, he, rfl⟩
    exact absurd he hm

theorem vector_non_membership_error_iff_witness :
    ((5 : ZMod 11) ∉ ([3, 4] : List (ZMod 11))) ∧
      (vector_non_membership_gadget (Composer.init) ([3, 4] : List (ZMod 11))
        ⟨5, 1⟩).2 = GOutcome.ok :=
  ⟨by decide,
    (vector_non_membership_error_iff Composer.init [3, 4] ⟨5, 1⟩).2 (by decide)⟩

end C1Proof

section C7Proof

variable {F : Type} [Field F] [DecidableEq F]

theorem mapCongrMem {α β : Type} (f g : α → β) :
    ∀ l : List α, (∀ a ∈ l, f a = g a) → l.map f = l.map g := by
  intro l h
  induction l with
  | nil => rfl
  | cons a l ih =>
    simp only [List.map_cons, h a (by simp), List.cons.injEq, true_and]
    exact ih fun b hb => h b (by simp [hb])

theorem sumLoop_spec (v : List (AllocatedScalar F)) :
    ∀ (c : Composer F) (a : Nat), a < c.witnesses.length →
      (∀ x ∈ v, x.var < c.witnesses.length) →
      ∃ u t,
        (sumLoop c a v).1.witnesses = c.witnesses ++ u ∧
        (sumLoop c a v).1.gates = c.gates ++ t ∧
        t.length = v.length ∧
        (∀ g ∈ t, isAddGate g = true) ∧
        (∀ g ∈ t, Gate.holds (sumLoop c a v).1.witnesses g) ∧
        (sumLoop c a v).2 < (sumLoop c a v).1.witnesses.length ∧
        (sumLoop c a v).1.wget (sumLoop c a v).2 =
          c.wget a + (v.map (fun x => c.wget x.var)).sum := by
  induction v with
  | nil =>
    intro c a ha _
    refine ⟨[], [], by simp [sumLoop], by simp [sumLoop], rfl, by simp, by simp,
      by simpa [sumLoop] using ha, by simp [sumLoop]⟩
  | cons x rest ih =>
    intro c a ha hv
    have hstep : sumLoop c a (x :: rest) =
        sumLoop (Composer.add c 1 a 1 x.var 0 none).1
          (Composer.add c 1 a 1 x.var 0 none).2 rest := rfl
    have hw : (Composer.add c 1 a 1 x.var 0 none).1.witnesses =
        c.witnesses ++ [1 * c.wget a + 1 * c.wget x.var + 0 + 0] := rfl
    have hg : (Composer.add c 1 a 1 x.var 0 none).1.gates =
        c.gates ++ [Gate.arith a x.var c.witnesses.length 0 1 1 (-1) 0 0] := rfl
    have hn : (Composer.add c 1 a 1 x.var 0 none).2 = c.witnesses.length := rfl
    have hxv : x.var < c.witnesses.length := hv x (by simp)
    have hb : (Composer.add c 1 a 1 x.var 0 none).2 <
        (Composer.add c 1 a 1 x.var 0 none).1.witnesses.length := by
      rw [hn, hw]; simp
    have hvr : ∀ y ∈ rest, y.var < (Composer.add c 1 a 1 x.var 0 none).1.witnesses.length := by
      intro y hy
      rw [hw]
      calc y.var < c.witnesses.length := hv y (by simp [hy])
        _ ≤ _ := by simp
    obtain ⟨u, t, h1, h2, h3, h4, h5, h6, h7⟩ := ih _ _ hb hvr
    refine ⟨(1 * c.wget a + 1 * c.wget x.var + 0 + 0) :: u,
      Gate.arith a x.var c.witnesses.length 0 1 1 (-1) 0 0 :: t, ?_, ?_, ?_, ?_, ?_, ?_, ?_⟩
    · rw [hstep, h1, hw, List.append_assoc]; rfl
    · rw [hstep, h2, hg, List.append_assoc]; rfl
    · simp [h3]
    · intro g hgm
      rcases List.mem_cons.mp hgm with rfl | hgm
      · simp [isAddGate]
      · exact h4 g hgm
    · intro g hgm
      rcases List.mem_cons.mp hgm with rfl | hgm
      · rw [hstep]
        simp only [Gate.holds]
        have hW : (sumLoop (Composer.add c 1 a 1 x.var 0 none).1
            (Composer.add c 1 a 1 x.var 0 none).2 rest).1.witnesses =
            c.witnesses ++ (1 * c.wget a + 1 * c.wget x.var + 0 + 0) :: u := by
          rw [h1, hw, List.append_assoc]; rfl
        rw [hW]
        rw [wget_append_lt _ _ _ ha, wget_append_lt _ _ _ hxv, wget_append_at]
        show (0 : F) * _ * _ + 1 * c.wget a + 1 * c.wget x.var +
          (-1) * (1 * c.wget a + 1 * c.wget x.var + 0 + 0) + 0 + 0 = 0
        ring
      · rw [hstep]; exact h5 g hgm
    · rw [hstep]; exact h6
    · rw [hstep, h7]
      have hacc : (Composer.add c 1 a 1 x.var 0 none).1.wget
          (Composer.add c 1 a 1 x.var 0 none).2 =
          1 * c.wget a + 1 * c.wget x.var + 0 + 0 := by
        rw [hn]
        show (c.witnesses ++ [1 * c.wget a + 1 * c.wget x.var + 0 + 0]).getD
          c.witnesses.length 0 = _
        exact wget_append_at _ _ _
      have hmap : rest.map (fun y => (Composer.add c 1 a 1 x.var 0 none).1.wget y.var) =
          rest.map (fun y => c.wget y.var) := by
        refine mapCongrMem _ _ rest fun y hy => ?_
        show (c.witnesses ++ _).getD y.var 0 = _
        exact wget_append_lt _ _ _ (hv y (by simp [hy]))
      rw [hacc, hmap]
      simp only [List.map_cons, List.sum_cons]
      ring

/-- C7: `vector_sum_gadget` always returns `Ok`; it folds the vector with
two-input addition gates into one accumulator starting from the zero
handle, then fixes the accumulator through the constant-fixing operation
with public-input offset `-expected_sum`; the appended constraints hold
under the composer's witnesses exactly when the bound values sum to
`expected_sum`, and for a zero-length vector exactly when
`expected_sum` is zero. -/
theorem vector_sum_gadget_spec (c : Composer F) (v : List (AllocatedScalar F)) (n : Nat)
    (h0 : c.zeroVarOk) (hv : ∀ x ∈ v, x.var < c.witnesses.length) :
    ∃ c' t acc,
      vector_sum_gadget c v n = (c', GOutcome.ok) ∧
      c'.gates = c.gates ++ t ++ [Gate.fixed acc 0 (-(n : F))] ∧
      t.length = v.length ∧ (∀ g ∈ t, isAddGate g = true) ∧
      ((∀ g ∈ t ++ [Gate.fixed acc 0 (-(n : F))], Gate.holds c'.witnesses g) ↔
        (v.map (fun x => c.wget x.var)).sum = (n : F)) ∧
      (v = [] →
        ((∀ g ∈ t ++ [Gate.fixed acc 0 (-(n : F))], Gate.holds c'.witnesses g) ↔
          (n : F) = 0)) := by
  obtain ⟨u, t, h1, h2, h3, h4, h5, h6, h7⟩ :=
    sumLoop_spec v c c.zeroVar h0.1 hv
  have hrw : vector_sum_gadget c v n =
      ((sumLoop c c.zeroVar v).1.constrainToConstant (sumLoop c c.zeroVar v).2 0
        (some (-(n : F))), GOutcome.ok) := rfl
  refine ⟨_, t, (sumLoop c c.zeroVar v).2, hrw, ?_, h3, h4, ?_, ?_⟩
  · show (sumLoop c c.zeroVar v).1.gates ++ [Gate.fixed _ 0 (-(n : F))] = _
    rw [h2, List.append_assoc]
  · have hWsame : ((sumLoop c c.zeroVar v).1.constrainToConstant
        (sumLoop c c.zeroVar v).2 0 (some (-(n : F)))).witnesses =
        (sumLoop c c.zeroVar v).1.witnesses := rfl
    rw [hWsame]
    have hsum : (sumLoop c c.zeroVar v).1.wget (sumLoop c c.zeroVar v).2 =
        (v.map (fun x => c.wget x.var)).sum := by
      rw [h7, h0.2, zero_add]
    constructor
    · intro hall
      have hfix := hall (Gate.fixed (sumLoop c c.zeroVar v).2 0 (-(n : F))) (by simp)
      simp only [Gate.holds] at hfix
      have : (sumLoop c c.zeroVar v).1.wget (sumLoop c c.zeroVar v).2 = (n : F) := by
        have hgd : ((sumLoop c c.zeroVar v).1.witnesses.getD
            (sumLoop c c.zeroVar v).2 0) =
            (sumLoop c c.zeroVar v).1.wget (sumLoop c c.zeroVar v).2 := rfl
        rw [hgd] at hfix
        linear_combination hfix
      rw [← this, hsum]
    · intro heq g hgm
      rcases List.mem_append.mp hgm with hgm | hgm
      · exact h5 g hgm
      · have : g = Gate.fixed (sumLoop c c.zeroVar v).2 0 (-(n : F)) := by
          simpa using hgm
        subst this
        simp only [Gate.holds]
        have hgd : ((sumLoop c c.zeroVar v).1.witnesses.getD
            (sumLoop c c.zeroVar v).2 0) = (v.map (fun x => c.wget x.var)).sum := by
          rw [← hsum]; rfl
        rw [hgd, heq]
        ring
  · intro hnil
    subst hnil
    have hWsame : ((sumLoop c c.zeroVar ([] : List (AllocatedScalar F))).1.constrainToConstant
        (sumLoop c c.zeroVar ([] : List (AllocatedScalar F))).2 0
        (some (-(n : F)))).witnesses =
        (sumLoop c c.zeroVar ([] : List (AllocatedScalar F))).1.witnesses := rfl
    constructor
    · intro hall
      have hfix := hall (Gate.fixed (sumLoop c c.zeroVar ([] : List (AllocatedScalar F))).2
        0 (-(n : F))) (by simp)
      simp only [Gate.holds] at hfix
      have hgd : ((sumLoop c c.zeroVar ([] : List (AllocatedScalar F))).1.witnesses.getD
          (sumLoop c c.zeroVar ([] : List (AllocatedScalar F))).2 0) = 0 := by
        have := h7
        simp only [List.map_nil, List.sum_nil, add_zero] at this
        show Composer.wget _ _ = 0
        rw [this, h0.2]
      rw [hWsame, hgd] at hfix
      linear_combination -hfix
    · intro heq g hgm
      rcases List.mem_append.mp hgm with hgm | hgm
      · have h3' : t = [] := List.length_eq_zero.mp h3
        subst h3'
        simp at hgm
      · have : g = Gate.fixed (sumLoop c c.zeroVar ([] : List (AllocatedScalar F))).2
            0 (-(n : F)) := by simpa using hgm
        subst this
        simp only [Gate.holds]
        have hgd : ((sumLoop c c.zeroVar ([] : List (AllocatedScalar F))).1.witnesses.getD
            (sumLoop c c.zeroVar ([] : List (AllocatedScalar F))).2 0) = 0 := by
          have := h7
          simp only [List.map_nil, List.sum_nil, add_zero] at this
          show Composer.wget _ _ = 0
          rw [this, h0.2]
        rw [hWsame, hgd, heq]
        ring

theorem vector_sum_gadget_spec_witness :
    (Composer.init : Composer (ZMod 11)).zeroVarOk ∧
      (∀ x ∈ ([] : List (AllocatedScalar (ZMod 11))),
        x.var < (Composer.init : Composer (ZMod 11)).witnesses.length) ∧
      ∃ c' t acc,
        vector_sum_gadget (Composer.init : Composer (ZMod 11)) [] 0 =
          (c', GOutcome.ok) ∧
        c'.gates = (Composer.init : Composer (ZMod 11)).gates ++ t ++
          [Gate.fixed acc 0 (-((0 : Nat) : ZMod 11))] ∧
        t.length = ([] : List (AllocatedScalar (ZMod 11))).length ∧
        (∀ g ∈ t, isAddGate g = true) ∧
        ((∀ g ∈ t ++ [Gate.fixed acc 0 (-((0 : Nat) : ZMod 11))],
            Gate.holds c'.witnesses g) ↔
          (([] : List (AllocatedScalar (ZMod 11))).map
            (fun x => (Composer.init : Composer (ZMod 11)).wget x.var)).sum =
            ((0 : Nat) : ZMod 11)) ∧
        (([] : List (AllocatedScalar (ZMod 11))) = [] →
          ((∀ g ∈ t ++ [Gate.fixed acc 0 (-((0 : Nat) : ZMod 11))],
              Gate.holds c'.witnesses g) ↔ ((0 : Nat) : ZMod 11) = 0)) :=
  ⟨⟨by decide, by decide⟩, by simp,
    vector_sum_gadget_spec Composer.init [] 0 ⟨by decide, by decide⟩ (by simp)⟩

end C7Proof

section MembershipInfra

variable {F : Type} [Field F] [DecidableEq F]

theorem assignSetLoop_length (v : List F) :
    ∀ c : Composer F, (assignSetLoop c v).2.length = v.length := by
  induction v with
  | nil => intro c; rfl
  | cons e rest ih =>
    intro c
    show ((assignSetLoop _ rest).2.length + 1) = rest.length + 1
    rw [ih]

theorem allocBitsLoop_length (bs : List F) :
    ∀ c : Composer F, (allocBitsLoop c bs).2.length = bs.length := by
  induction bs with
  | nil => intro c; rfl
  | cons b rest ih =>
    intro c
    show ((allocBitsLoop _ rest).2.length + 1) = rest.length + 1
    rw [ih]

theorem assignSetLoop_spec (v : List F) :
    ∀ c : Composer F,
      Composer.Ext c (assignSetLoop c v).1 ∧
      (∀ x ∈ (assignSetLoop c v).2,
        x.var < (assignSetLoop c v).1.witnesses.length) := by
  induction v with
  | nil => intro c; exact ⟨Ext_refl c, by simp [assignSetLoop]⟩
  | cons e rest ih =>
    intro c
    have hstep : assignSetLoop c (e :: rest) =
        ((assignSetLoop
            (⟨c.witnesses ++ [e],
              c.gates ++ [Gate.fixed c.witnesses.length e 0]⟩ : Composer F) rest).1,
          (⟨e, c.witnesses.length⟩ : AllocatedScalar F) ::
            (assignSetLoop
              (⟨c.witnesses ++ [e],
                c.gates ++ [Gate.fixed c.witnesses.length e 0]⟩ : Composer F) rest).2) :=
      rfl
    have hstepExt : Composer.Ext c
        (⟨c.witnesses ++ [e],
          c.gates ++ [Gate.fixed c.witnesses.length e 0]⟩ : Composer F) :=
      ⟨⟨[e], rfl⟩, ⟨[Gate.fixed c.witnesses.length e 0], rfl⟩⟩
    obtain ⟨hExt, hBound⟩ :=
      ih ⟨c.witnesses ++ [e], c.gates ++ [Gate.fixed c.witnesses.length e 0]⟩
    rw [hstep]
    refine ⟨Ext_trans hstepExt hExt, ?_⟩
    intro x hx
    rcases List.mem_cons.mp hx with rfl | hx
    · show c.witnesses.length < _
      calc c.witnesses.length <
          (⟨c.witnesses ++ [e],
            c.gates ++ [Gate.fixed c.witnesses.length e 0]⟩ : Composer F).witnesses.length := by
            simp
        _ ≤ _ := Ext_len hExt
    · exact hBound x hx

theorem allocBitsLoop_spec (bs : List F) :
    ∀ c : Composer F,
      ∃ t,
        (∃ u, (allocBitsLoop c bs).1.witnesses = c.witnesses ++ u) ∧
        (allocBitsLoop c bs).1.gates = c.gates ++ t ∧
        (allocBitsLoop c bs).2.map (fun x => x.scalar) = bs ∧
        (∀ x ∈ (allocBitsLoop c bs).2,
          x.var < (allocBitsLoop c bs).1.witnesses.length) ∧
        (∀ x ∈ (allocBitsLoop c bs).2,
          (allocBitsLoop c bs).1.wget x.var = x.scalar) ∧
        (∀ x ∈ (allocBitsLoop c bs).2,
          Gate.arith x.var (x.var + 1) 0 1 0 0 0 0 0 ∈ t) := by
  induction bs with
  | nil =>
    intro c
    exact ⟨[], ⟨[], by simp [allocBitsLoop]⟩, by simp [allocBitsLoop],
      by simp [allocBitsLoop], by simp [allocBitsLoop], by simp [allocBitsLoop],
      by simp [allocBitsLoop]⟩
  | cons b rest ih =>
    intro c
    obtain ⟨c', heq, hw0, hg0, hwg, _⟩ :=
      bit_gadget_spec (AllocatedScalar.allocate c b).1 (AllocatedScalar.allocate c b).2
        (by simp [AllocatedScalar.allocate, Composer.addInput])
        (by
          show (c.witnesses ++ [b]).getD c.witnesses.length 0 = b
          exact wget_append_at _ _ _)
    have hw' : c'.witnesses = (c.witnesses ++ [b]) ++ [1 - b, (1 - b) + b] := hw0
    have hL : ((AllocatedScalar.allocate c b).1.witnesses.length) =
        c.witnesses.length + 1 := by
      simp [AllocatedScalar.allocate, Composer.addInput]
    have hg' : c'.gates = c.gates ++ bitGates (c.witnesses.length + 1)
        c.witnesses.length := by
      rw [hg0, hL]
      rfl
    have hc2 : (bit_gadget (AllocatedScalar.allocate c b).1
        (AllocatedScalar.allocate c b).2).1 = c' := by rw [heq]
    have hstep : allocBitsLoop c (b :: rest) =
        ((allocBitsLoop c' rest).1,
          (⟨b, c.witnesses.length⟩ : AllocatedScalar F) ::
            (allocBitsLoop c' rest).2) := by
      show ((allocBitsLoop (bit_gadget (AllocatedScalar.allocate c b).1
            (AllocatedScalar.allocate c b).2).1 rest).1,
          (AllocatedScalar.allocate c b).2 ::
            (allocBitsLoop (bit_gadget (AllocatedScalar.allocate c b).1
              (AllocatedScalar.allocate c b).2).1 rest).2) = _
      rw [hc2]
      rfl
    obtain ⟨t, ⟨u, h1⟩, h2, h3, h4, h5, h6⟩ := ih c'
    have hwit : (allocBitsLoop c' rest).1.witnesses =
        c.witnesses ++ (b :: (1 - b) :: ((1 - b) + b) :: u) := by
      rw [h1, hw']
      simp
    have hlen3 : c'.witnesses.length = c.witnesses.length + 3 := by
      rw [hw']; simp
    have hgates : (allocBitsLoop c' rest).1.gates =
        c.gates ++ (bitGates (c.witnesses.length + 1) c.witnesses.length ++ t) := by
      rw [h2, hg', List.append_assoc]
    rw [hstep]
    refine ⟨bitGates (c.witnesses.length + 1) c.witnesses.length ++ t,
      ⟨b :: (1 - b) :: ((1 - b) + b) :: u, hwit⟩, hgates, ?_, ?_, ?_, ?_⟩
    · simp [h3]
    · intro x hx
      rcases List.mem_cons.mp hx with rfl | hx
      · show c.witnesses.length < _
        rw [hwit]
        simp
      · exact h4 x hx
    · intro x hx
      rcases List.mem_cons.mp hx with rfl | hx
      · show (allocBitsLoop c' rest).1.witnesses.getD c.witnesses.length 0 = b
        rw [hwit]
        exact wget_append_at _ _ _
      · exact h5 x hx
    · intro x hx
      rcases List.mem_cons.mp hx with rfl | hx
      · refine List.mem_append_left _ ?_
        show Gate.arith c.witnesses.length (c.witnesses.length + 1) 0 1 0 0 0 0 0 ∈
          bitGates (c.witnesses.length + 1) c.witnesses.length
        simp [bitGates]
      · exact List.mem_append_right _ (h6 x hx)

theorem prodLoop_ext (ps : List (AllocatedScalar F × AllocatedScalar F)) :
    ∀ (c : Composer F) (acc : Nat) (val : AllocatedScalar F),
      Composer.Ext c (prodLoop c acc val ps).1 := by
  induction ps with
  | nil => intro c acc val; exact Ext_refl c
  | cons p rest ih =>
    obtain ⟨vi, bi⟩ := p
    intro c acc val
    have hstep : prodLoop c acc val ((vi, bi) :: rest) =
        prodLoop
          (Composer.add
            ((Composer.mul (Composer.mul c 1 vi.var bi.var 0 none).1 1 val.var bi.var 0
                none).1.assertEqual (Composer.mul c 1 vi.var bi.var 0 none).2
              (Composer.mul (Composer.mul c 1 vi.var bi.var 0 none).1 1 val.var bi.var 0
                none).2) 1 acc 1 (Composer.mul c 1 vi.var bi.var 0 none).2 0 none).1
          (Composer.add
            ((Composer.mul (Composer.mul c 1 vi.var bi.var 0 none).1 1 val.var bi.var 0
                none).1.assertEqual (Composer.mul c 1 vi.var bi.var 0 none).2
              (Composer.mul (Composer.mul c 1 vi.var bi.var 0 none).1 1 val.var bi.var 0
                none).2) 1 acc 1 (Composer.mul c 1 vi.var bi.var 0 none).2 0 none).2
          val rest := rfl
    rw [hstep]
    refine Ext_trans ?_ (ih _ _ val)
    refine Ext_trans (Ext_mul c 1 vi.var bi.var 0 none) ?_
    refine Ext_trans (Ext_mul _ 1 val.var bi.var 0 none) ?_
    exact Ext_trans (Ext_assertEqual _ _ _) (Ext_add _ 1 acc 1 _ 0 none)

theorem requireOk_ok (c : Composer F) (k : Composer F → Composer F × GOutcome) :
    requireOk (c, GOutcome.ok) k = k c := rfl

theorem vector_sum_pair (c : Composer F) (v : List (AllocatedScalar F)) (n : Nat) :
    vector_sum_gadget c v n = ((vector_sum_gadget c v n).1, GOutcome.ok) := rfl

theorem vector_product_pair (c : Composer F) (a b : List (AllocatedScalar F))
    (val : AllocatedScalar F) (h : a.length = b.length) :
    vector_product_gadget c a b val =
      ((vector_product_gadget c a b val).1, GOutcome.ok) := by
  unfold vector_product_gadget
  rw [if_pos h]

theorem vector_product_ext (c : Composer F) (a b : List (AllocatedScalar F))
    (val : AllocatedScalar F) :
    Composer.Ext c (vector_product_gadget c a b val).1 := by
  unfold vector_product_gadget
  by_cases h : a.length = b.length
  · rw [if_pos h]
    exact Ext_trans (prodLoop_ext _ _ _ _) (Ext_assertEqual _ _ _)
  · rw [if_neg h]
    exact Ext_refl c

theorem set_membership_eq (c : Composer F) (v : List F) (val : AllocatedScalar F) :
    set_membership_gadget c v val =
      ((vector_product_gadget
          (vector_sum_gadget
            (allocBitsLoop (assignSetLoop c v).1
              (v.map fun e => if e = val.scalar then (1 : F) else 0)).1
            (membershipBits c v val) 1).1
        (assignSetLoop c v).2 (membershipBits c v val) val).1,
      GOutcome.ok) := by
  have hlen : (assignSetLoop c v).2.length =
      (allocBitsLoop (assignSetLoop c v).1
        (v.map fun e => if e = val.scalar then (1 : F) else 0)).2.length := by
    rw [assignSetLoop_length, allocBitsLoop_length, List.length_map]
  simp only [set_membership_gadget]
  rw [vector_sum_pair, requireOk_ok]
  rw [vector_product_pair _ _ _ _ hlen, requireOk_ok]
  rfl

theorem set_membership_no_product_eq (c : Composer F) (v : List F)
    (val : AllocatedScalar F) :
    set_membership_no_product c v val =
      ((vector_sum_gadget
          (allocBitsLoop (assignSetLoop c v).1
            (v.map fun e => if e = val.scalar then (1 : F) else 0)).1
          (membershipBits c v val) 1).1, GOutcome.ok) := by
  simp only [set_membership_no_product]
  rw [vector_sum_pair, requireOk_ok]
  rfl

theorem set_membership_master (c : Composer F) (v : List F) (val : AllocatedScalar F)
    (h0 : c.zeroVarOk) :
    ∃ c' acc,
      set_membership_gadget c v val = (c', GOutcome.ok) ∧
      Composer.Ext c c' ∧
      (membershipBits c v val).map (fun x => x.scalar) =
        v.map (fun e => if e = val.scalar then (1 : F) else 0) ∧
      (∀ x ∈ membershipBits c v val, c'.wget x.var = x.scalar) ∧
      (∀ x ∈ membershipBits c v val,
        Gate.arith x.var (x.var + 1) 0 1 0 0 0 0 0 ∈ c'.gates) ∧
      Gate.fixed acc 0 (-(1 : F)) ∈ c'.gates ∧
      c'.wget acc = ((membershipBits c v val).map (fun x => x.scalar)).sum := by
  obtain ⟨hExtA, _hBoundA⟩ := assignSetLoop_spec v c
  obtain ⟨tB, ⟨uB, hB1⟩, hB2, hBmap, hBbound, hBbind, hBgate⟩ :=
    allocBitsLoop_spec (v.map fun e => if e = val.scalar then (1 : F) else 0)
      (assignSetLoop c v).1
  have hExtB : Composer.Ext (assignSetLoop c v).1
      (allocBitsLoop (assignSetLoop c v).1
        (v.map fun e => if e = val.scalar then (1 : F) else 0)).1 :=
    ⟨⟨uB, hB1⟩, ⟨tB, hB2⟩⟩
  have h02 : (allocBitsLoop (assignSetLoop c v).1
      (v.map fun e => if e = val.scalar then (1 : F) else 0)).1.zeroVarOk :=
    Ext_zeroVarOk (Ext_trans hExtA hExtB) h0
  obtain ⟨uS, tS, hS1, hS2, _hSlen, _hSadd, _hSholds, hSaccb, hSwget⟩ :=
    sumLoop_spec (membershipBits c v val)
      (allocBitsLoop (assignSetLoop c v).1
        (v.map fun e => if e = val.scalar then (1 : F) else 0)).1
      (allocBitsLoop (assignSetLoop c v).1
        (v.map fun e => if e = val.scalar then (1 : F) else 0)).1.zeroVar
      h02.1 hBbound
  have hsumfst : (vector_sum_gadget
      (allocBitsLoop (assignSetLoop c v).1
        (v.map fun e => if e = val.scalar then (1 : F) else 0)).1
      (membershipBits c v val) 1).1 =
      ((sumLoop (allocBitsLoop (assignSetLoop c v).1
          (v.map fun e => if e = val.scalar then (1 : F) else 0)).1
        (allocBitsLoop (assignSetLoop c v).1
          (v.map fun e => if e = val.scalar then (1 : F) else 0)).1.zeroVar
        (membershipBits c v val)).1.constrainToConstant
          (sumLoop (allocBitsLoop (assignSetLoop c v).1
            (v.map fun e => if e = val.scalar then (1 : F) else 0)).1
          (allocBitsLoop (assignSetLoop c v).1
            (v.map fun e => if e = val.scalar then (1 : F) else 0)).1.zeroVar
          (membershipBits c v val)).2 0 (some (-((1 : Nat) : F)))) := rfl
  have hExtS : Composer.Ext
      (allocBitsLoop (assignSetLoop c v).1
        (v.map fun e => if e = val.scalar then (1 : F) else 0)).1
      (vector_sum_gadget
        (allocBitsLoop (assignSetLoop c v).1
          (v.map fun e => if e = val.scalar then (1 : F) else 0)).1
        (membershipBits c v val) 1).1 := by
    rw [hsumfst]
    exact Ext_trans ⟨⟨uS, hS1⟩, ⟨tS, hS2⟩⟩ (Ext_constrainToConstant _ _ _ _)
  have hExtP : Composer.Ext
      (vector_sum_gadget
        (allocBitsLoop (assignSetLoop c v).1
          (v.map fun e => if e = val.scalar then (1 : F) else 0)).1
        (membershipBits c v val) 1).1
      (vector_product_gadget
        (vector_sum_gadget
          (allocBitsLoop (assignSetLoop c v).1
            (v.map fun e => if e = val.scalar then (1 : F) else 0)).1
          (membershipBits c v val) 1).1
        (assignSetLoop c v).2 (membershipBits c v val) val).1 :=
    vector_product_ext _ _ _ _
  refine ⟨_, (sumLoop (allocBitsLoop (assignSetLoop c v).1
      (v.map fun e => if e = val.scalar then (1 : F) else 0)).1
    (allocBitsLoop (assignSetLoop c v).1
      (v.map fun e => if e = val.scalar then (1 : F) else 0)).1.zeroVar
    (membershipBits c v val)).2,
    set_membership_eq c v val,
    Ext_trans (Ext_trans (Ext_trans hExtA hExtB) hExtS) hExtP, hBmap, ?_, ?_, ?_, ?_⟩
  · intro x hx
    rw [Ext_wget (Ext_trans hExtS hExtP) x.var (hBbound x hx)]
    exact hBbind x hx
  · intro x hx
    refine Ext_gate_mem (Ext_trans hExtS hExtP) ?_
    rw [hB2]
    exact List.mem_append_right _ (hBgate x hx)
  · refine Ext_gate_mem hExtP ?_
    rw [hsumfst]
    show _ ∈ _ ++ [Gate.fixed _ 0 ((some (-((1 : Nat) : F))).getD 0)]
    refine List.mem_append_right _ ?_
    simp
  · have haccb : (sumLoop (allocBitsLoop (assignSetLoop c v).1
        (v.map fun e => if e = val.scalar then (1 : F) else 0)).1
      (allocBitsLoop (assignSetLoop c v).1
        (v.map fun e => if e = val.scalar then (1 : F) else 0)).1.zeroVar
      (membershipBits c v val)).2 <
        (vector_sum_gadget
          (allocBitsLoop (assignSetLoop c v).1
            (v.map fun e => if e = val.scalar then (1 : F) else 0)).1
          (membershipBits c v val) 1).1.witnesses.length := by
      rw [hsumfst]
      exact hSaccb
    rw [Ext_wget hExtP _ haccb]
    have hwe : (vector_sum_gadget
        (allocBitsLoop (assignSetLoop c v).1
          (v.map fun e => if e = val.scalar then (1 : F) else 0)).1
        (membershipBits c v val) 1).1.wget
        (sumLoop (allocBitsLoop (assignSetLoop c v).1
          (v.map fun e => if e = val.scalar then (1 : F) else 0)).1
        (allocBitsLoop (assignSetLoop c v).1
          (v.map fun e => if e = val.scalar then (1 : F) else 0)).1.zeroVar
        (membershipBits c v val)).2 =
        (sumLoop (allocBitsLoop (assignSetLoop c v).1
          (v.map fun e => if e = val.scalar then (1 : F) else 0)).1
        (allocBitsLoop (assignSetLoop c v).1
          (v.map fun e => if e = val.scalar then (1 : F) else 0)).1.zeroVar
        (membershipBits c v val)).1.wget
        (sumLoop (allocBitsLoop (assignSetLoop c v).1
          (v.map fun e => if e = val.scalar then (1 : F) else 0)).1
        (allocBitsLoop (assignSetLoop c v).1
          (v.map fun e => if e = val.scalar then (1 : F) else 0)).1.zeroVar
        (membershipBits c v val)).2 := rfl
    rw [hwe, hSwget, h02.2, zero_add]
    congr 1
    refine mapCongrMem _ _ _ fun x hx => ?_
    exact hBbind x hx

end MembershipInfra

section C10Proof

variable {F : Type} [Field F] [DecidableEq F]

/-- C10: `set_membership_gadget` returns `Ok` for every set vector and
every candidate value — it has no `NonExistingInverse` path, so a false
membership statement surfaces only as unsatisfied constraints at
verification, never as a construction-time error. -/
theorem set_membership_always_ok (c : Composer F) (v : List F)
    (val : AllocatedScalar F) :
    (set_membership_gadget c v val).2 = GOutcome.ok := by
  rw [set_membership_eq]

end C10Proof

section C3Proof

variable {F : Type} [Field F] [DecidableEq F]

/-- C3 is false of the code: on the concrete public set `[3]` with
candidate value `3`, the gadget's result differs from the spec-described
variant that stops after the indicator-sum constraint — the extra
Product/Tie-Back constraints are appended. -/
theorem set_membership_no_product_counterexample :
    set_membership_gadget (⟨[0, 3], []⟩ : Composer (ZMod 11)) [3] ⟨3, 1⟩ ≠
      set_membership_no_product (⟨[0, 3], []⟩ : Composer (ZMod 11)) [3] ⟨3, 1⟩ := by
  decide

/-- C3 (amended): the public-set Membership Gadget adds the
element-fixing constraints, the indicator-bit constraints and the
indicator-sum-equals-1 constraint, and then additionally runs the
Product/Tie-Back Gadget on the fixed set and the indicator bits — it
does not stop before the Product/Tie-Back step. -/
theorem set_membership_runs_product (c : Composer F) (v : List F)
    (val : AllocatedScalar F) :
    set_membership_gadget c v val =
      ((vector_product_gadget (set_membership_no_product c v val).1
          (assignSetLoop c v).2 (membershipBits c v val) val).1, GOutcome.ok) := by
  rw [set_membership_eq, set_membership_no_product_eq]

end C3Proof

section C5Proof

variable {F : Type} [Field F] [DecidableEq F]

/-- C5: `set_membership_gadget` computes one indicator per set index
whose witness value is `1` exactly when that element equals
`assigned_value.scalar` and `0` otherwise, bit-constrains every
indicator with the Bit Gadget's booleanity gate, and constrains the sum
of the indicators (held by the accumulator witness) to equal exactly
`1`. -/
theorem set_membership_indicator_spec (c : Composer F) (v : List F)
    (val : AllocatedScalar F) (h0 : c.zeroVarOk) :
    ∃ c' acc,
      set_membership_gadget c v val = (c', GOutcome.ok) ∧
      (membershipBits c v val).map (fun x => x.scalar) =
        v.map (fun e => if e = val.scalar then (1 : F) else 0) ∧
      (∀ x ∈ membershipBits c v val, c'.wget x.var = x.scalar) ∧
      (∀ x ∈ membershipBits c v val,
        Gate.arith x.var (x.var + 1) 0 1 0 0 0 0 0 ∈ c'.gates) ∧
      Gate.fixed acc 0 (-(1 : F)) ∈ c'.gates ∧
      c'.wget acc = ((membershipBits c v val).map (fun x => x.scalar)).sum := by
  obtain ⟨c', acc, h1, _h2, h3, h4, h5, h6, h7⟩ := set_membership_master c v val h0
  exact ⟨c', acc, h1, h3, h4, h5, h6, h7⟩

theorem set_membership_indicator_spec_witness :
    (⟨[0, 3], []⟩ : Composer (ZMod 11)).zeroVarOk ∧
      ∃ c' acc,
        set_membership_gadget (⟨[0, 3], []⟩ : Composer (ZMod 11)) [3, 4] ⟨3, 1⟩ =
          (c', GOutcome.ok) ∧
        (membershipBits (⟨[0, 3], []⟩ : Composer (ZMod 11)) [3, 4] ⟨3, 1⟩).map
          (fun x => x.scalar) =
          ([3, 4] : List (ZMod 11)).map
            (fun e => if e = (⟨3, 1⟩ : AllocatedScalar (ZMod 11)).scalar
              then (1 : ZMod 11) else 0) ∧
        (∀ x ∈ membershipBits (⟨[0, 3], []⟩ : Composer (ZMod 11)) [3, 4] ⟨3, 1⟩,
          c'.wget x.var = x.scalar) ∧
        (∀ x ∈ membershipBits (⟨[0, 3], []⟩ : Composer (ZMod 11)) [3, 4] ⟨3, 1⟩,
          Gate.arith x.var (x.var + 1) 0 1 0 0 0 0 0 ∈ c'.gates) ∧
        Gate.fixed acc 0 (-(1 : ZMod 11)) ∈ c'.gates ∧
        c'.wget acc = ((membershipBits (⟨[0, 3], []⟩ : Composer (ZMod 11)) [3, 4]
          ⟨3, 1⟩).map (fun x => x.scalar)).sum :=
  ⟨⟨by decide, by decide⟩,
    set_membership_indicator_spec ⟨[0, 3], []⟩ [3, 4] ⟨3, 1⟩ ⟨by decide, by decide⟩⟩

end C5Proof

section C6Proof

variable {F : Type} [Field F] [DecidableEq F]

theorem indicator_sum_eq_count (v : List F) (s : F) :
    (v.map fun e => if e = s then (1 : F) else 0).sum = ((v.count s : Nat) : F) := by
  induction v with
  | nil => simp
  | cons e rest ih =>
    by_cases he : e = s
    · subst he
      simp [List.count_cons, ih]
      ring
    · have hne : ¬ s = e := fun h => he h.symm
      simp [he, hne, List.count_cons, ih]

/-- C6: if the public set contains the candidate value more than once
(with multiplicity distinct from `1` in the field, as always holds for
the intended BLS scalar field with sets smaller than the
characteristic), construction still succeeds with `Ok`, the computed
indicator witnesses sum to the multiplicity, and the emitted constraint
system is not satisfied by the composer's own witnesses — the
indicator-sum gate demands `1`. -/
theorem set_membership_duplicate_unsat (c : Composer F) (v : List F)
    (val : AllocatedScalar F) (h0 : c.zeroVarOk)
    (h2 : 2 ≤ v.count val.scalar)
    (hk : ((v.count val.scalar : Nat) : F) ≠ 1) :
    ∃ c', set_membership_gadget c v val = (c', GOutcome.ok) ∧
      ((membershipBits c v val).map (fun x => x.scalar)).sum =
        ((v.count val.scalar : Nat) : F) ∧
      ¬ c'.satisfied := by
  obtain ⟨c', acc, h1, _hExt, h3, _h4, _h5, h6, h7⟩ := set_membership_master c v val h0
  have hsum : ((membershipBits c v val).map (fun x => x.scalar)).sum =
      ((v.count val.scalar : Nat) : F) := by
    rw [h3]
    exact indicator_sum_eq_count v val.scalar
  refine ⟨c', h1, hsum, ?_⟩
  intro hsat
  have hh := hsat _ h6
  simp only [Gate.holds] at hh
  have hgd : c'.witnesses.getD acc 0 = c'.wget acc := rfl
  rw [hgd] at hh
  have hacc1 : c'.wget acc = 1 := by linear_combination hh
  rw [h7, hsum] at hacc1
  exact hk hacc1

theorem set_membership_duplicate_unsat_witness :
    (⟨[0, 3], []⟩ : Composer (ZMod 11)).zeroVarOk ∧
      2 ≤ ([3, 3] : List (ZMod 11)).count
        ((⟨3, 1⟩ : AllocatedScalar (ZMod 11)).scalar) ∧
      ((((([3, 3] : List (ZMod 11)).count
        ((⟨3, 1⟩ : AllocatedScalar (ZMod 11)).scalar)) : Nat) : ZMod 11) ≠ 1) ∧
      ∃ c', set_membership_gadget (⟨[0, 3], []⟩ : Composer (ZMod 11)) [3, 3] ⟨3, 1⟩ =
          (c', GOutcome.ok) ∧
        ((membershipBits (⟨[0, 3], []⟩ : Composer (ZMod 11)) [3, 3] ⟨3, 1⟩).map
          (fun x => x.scalar)).sum =
          (((([3, 3] : List (ZMod 11)).count
            ((⟨3, 1⟩ : AllocatedScalar (ZMod 11)).scalar) : Nat)) : ZMod 11) ∧
        ¬ c'.satisfied :=
  ⟨⟨by decide, by decide⟩, by decide, by decide,
    set_membership_duplicate_unsat ⟨[0, 3], []⟩ [3, 3] ⟨3, 1⟩
      ⟨by decide, by decide⟩ (by decide) (by decide)⟩

end C6Proof

section UniqInfra

variable {F : Type} [Field F] [DecidableEq F]

theorem uniqInner_cons_eq (c : Composer F) (vi vj : AllocatedScalar F)
    (rest : List (AllocatedScalar F)) (hd : vi.scalar - vj.scalar = 0) :
    uniqInner c vi (vj :: rest) =
      ((AllocatedScalar.allocate c (vi.scalar - vj.scalar)).1,
        GOutcome.err GadgetsError.NonExistingInverse) := by
  simp only [uniqInner]
  rw [if_pos hd]

theorem uniqInner_cons_ne (c : Composer F) (vi vj : AllocatedScalar F)
    (rest : List (AllocatedScalar F)) (hd : vi.scalar - vj.scalar ≠ 0) :
    uniqInner c vi (vj :: rest) =
      uniqInner (diffCheckGates
        (AllocatedScalar.allocate (AllocatedScalar.allocate c
          (vi.scalar - vj.scalar)).1 (vi.scalar - vj.scalar)⁻¹).1 vi.var vj.var
        (AllocatedScalar.allocate c (vi.scalar - vj.scalar)).2.var
        (AllocatedScalar.allocate (AllocatedScalar.allocate c
          (vi.scalar - vj.scalar)).1 (vi.scalar - vj.scalar)⁻¹).2.var) vi rest := by
  simp only [uniqInner]
  rw [if_neg hd]

theorem diffCheckGates_facts (c : Composer F) (a b dv dvi : Nat) :
    (∃ u, (diffCheckGates c a b dv dvi).witnesses = c.witnesses ++ u) ∧
    (diffCheckGates c a b dv dvi).gates.length = c.gates.length + 4 ∧
    (diffCheckGates c a b dv dvi).gates.countP isAddGate =
      c.gates.countP isAddGate + 1 ∧
    (diffCheckGates c a b dv dvi).gates.countP isFusedNonzeroGate =
      c.gates.countP isFusedNonzeroGate + 1 := by
  refine ⟨⟨[1 * c.wget dv + 1 * c.wget b + 0 + 0, 1], ?_⟩, ?_, ?_, ?_⟩ <;>
    simp [diffCheckGates, Composer.add, Composer.addInput, Composer.appendGate,
      Composer.assertEqual, Composer.addWitnessToCircuitDescription,
      Composer.constrainToConstant, Composer.polyGate, List.countP_append,
      List.countP_cons, isAddGate, isFusedNonzeroGate, one_ne_zero]

/-- The first two allocations of a uniqueness pair step: `diff` and
`diff_inv` are appended, gates unchanged. -/
theorem uniqAllocFacts (c : Composer F) (d : F) :
    (AllocatedScalar.allocate (AllocatedScalar.allocate c d).1 d⁻¹).1.witnesses =
      c.witnesses ++ [d, d⁻¹] ∧
    (AllocatedScalar.allocate (AllocatedScalar.allocate c d).1 d⁻¹).1.gates =
      c.gates := by
  constructor
  · simp [AllocatedScalar.allocate, Composer.addInput]
  · rfl

theorem uniqInner_outcome (rest : List (AllocatedScalar F)) :
    ∀ (c : Composer F) (vi : AllocatedScalar F),
      (uniqInner c vi rest).2 =
        if ∃ vj ∈ rest, vi.scalar = vj.scalar
        then GOutcome.err GadgetsError.NonExistingInverse else GOutcome.ok := by
  induction rest with
  | nil => intro c vi; simp [uniqInner]
  | cons vj rest ih =>
    intro c vi
    by_cases hv : vi.scalar = vj.scalar
    · have hd : vi.scalar - vj.scalar = 0 := by rw [hv, sub_self]
      rw [uniqInner_cons_eq c vi vj rest hd]
      simp [hv]
    · have hd : vi.scalar - vj.scalar ≠ 0 := sub_ne_zero.mpr hv
      rw [uniqInner_cons_ne c vi vj rest hd, ih]
      simp [hv]

theorem uniqInner_spec (rest : List (AllocatedScalar F)) :
    ∀ (c : Composer F) (vi : AllocatedScalar F),
      (∀ vj ∈ rest, vi.scalar ≠ vj.scalar) →
      (uniqInner c vi rest).2 = GOutcome.ok ∧
      (∃ u, (uniqInner c vi rest).1.witnesses = c.witnesses ++ u) ∧
      (uniqInner c vi rest).1.gates.length = c.gates.length + 4 * rest.length ∧
      (uniqInner c vi rest).1.gates.countP isAddGate =
        c.gates.countP isAddGate + rest.length ∧
      (uniqInner c vi rest).1.gates.countP isFusedNonzeroGate =
        c.gates.countP isFusedNonzeroGate + rest.length := by
  induction rest with
  | nil =>
    intro c vi _
    exact ⟨rfl, ⟨[], by simp [uniqInner]⟩, by simp [uniqInner],
      by simp [uniqInner], by simp [uniqInner]⟩
  | cons vj rest ih =>
    intro c vi h
    have hd : vi.scalar - vj.scalar ≠ 0 := sub_ne_zero.mpr (h vj (by simp))
    have hrest : ∀ x ∈ rest, vi.scalar ≠ x.scalar := fun x hx => h x (by simp [hx])
    rw [uniqInner_cons_ne c vi vj rest hd]
    obtain ⟨⟨u0, hu0⟩, hl0, ha0, hf0⟩ :=
      diffCheckGates_facts
        (AllocatedScalar.allocate (AllocatedScalar.allocate c
          (vi.scalar - vj.scalar)).1 (vi.scalar - vj.scalar)⁻¹).1 vi.var vj.var
        (AllocatedScalar.allocate c (vi.scalar - vj.scalar)).2.var
        (AllocatedScalar.allocate (AllocatedScalar.allocate c
          (vi.scalar - vj.scalar)).1 (vi.scalar - vj.scalar)⁻¹).2.var
    obtain ⟨hw2, hg2⟩ := uniqAllocFacts c (vi.scalar - vj.scalar)
    obtain ⟨ho, ⟨u2, hu2⟩, hl2, ha2, hf2⟩ :=
      ih (diffCheckGates
        (AllocatedScalar.allocate (AllocatedScalar.allocate c
          (vi.scalar - vj.scalar)).1 (vi.scalar - vj.scalar)⁻¹).1 vi.var vj.var
        (AllocatedScalar.allocate c (vi.scalar - vj.scalar)).2.var
        (AllocatedScalar.allocate (AllocatedScalar.allocate c
          (vi.scalar - vj.scalar)).1 (vi.scalar - vj.scalar)⁻¹).2.var) vi hrest
    refine ⟨ho, ⟨[vi.scalar - vj.scalar, (vi.scalar - vj.scalar)⁻¹] ++ u0 ++ u2, ?_⟩,
      ?_, ?_, ?_⟩
    · rw [hu2, hu0, hw2]
      simp [List.append_assoc]
    · rw [hl2, hl0, hg2]
      simp [List.length_cons]
      omega
    · rw [ha2, ha0, hg2]
      simp [List.length_cons]
      omega
    · rw [hf2, hf0, hg2]
      simp [List.length_cons]
      omega

theorem uniqOuter_outcome (v : List (AllocatedScalar F)) :
    ∀ c : Composer F,
      (uniqOuter c v).2 =
        if v.Pairwise (fun a b => a.scalar ≠ b.scalar) then GOutcome.ok
        else GOutcome.err GadgetsError.NonExistingInverse := by
  induction v with
  | nil => intro c; simp [uniqOuter]
  | cons vi rest ih =>
    intro c
    by_cases hex : ∃ vj ∈ rest, vi.scalar = vj.scalar
    · have hpair : uniqInner c vi rest =
          ((uniqInner c vi rest).1, GOutcome.err GadgetsError.NonExistingInverse) := by
        have : uniqInner c vi rest =
            ((uniqInner c vi rest).1, (uniqInner c vi rest).2) := rfl
        rw [this, uniqInner_outcome, if_pos hex]
      have hnp : ¬ (vi :: rest).Pairwise (fun a b => a.scalar ≠ b.scalar) := by
        rw [List.pairwise_cons]
        rintro ⟨hall, -⟩
        obtain ⟨vj, hm, heq⟩ := hex
        exact hall vj hm heq
      simp only [uniqOuter]
      rw [hpair, if_neg hnp]
    · have hpair : uniqInner c vi rest =
          ((uniqInner c vi rest).1, GOutcome.ok) := by
        have : uniqInner c vi rest =
            ((uniqInner c vi rest).1, (uniqInner c vi rest).2) := rfl
        rw [this, uniqInner_outcome, if_neg hex]
      push_neg at hex
      simp only [uniqOuter]
      rw [hpair]
      show (uniqOuter (uniqInner c vi rest).1 rest).2 = _
      rw [ih]
      have hiff : (vi :: rest).Pairwise (fun a b => a.scalar ≠ b.scalar) ↔
          rest.Pairwise (fun a b => a.scalar ≠ b.scalar) := by
        rw [List.pairwise_cons]
        exact ⟨fun h => h.2, fun h => ⟨hex, h⟩⟩
      by_cases hp : rest.Pairwise (fun a b => a.scalar ≠ b.scalar)
      · rw [if_pos hp, if_pos (hiff.mpr hp)]
      · rw [if_neg hp, if_neg (fun hh => hp (hiff.mp hh))]

theorem uniqOuter_spec (v : List (AllocatedScalar F)) :
    ∀ c : Composer F,
      v.Pairwise (fun a b => a.scalar ≠ b.scalar) →
      (uniqOuter c v).2 = GOutcome.ok ∧
      (∃ u, (uniqOuter c v).1.witnesses = c.witnesses ++ u) ∧
      (uniqOuter c v).1.gates.length = c.gates.length + 4 * pairCount v ∧
      (uniqOuter c v).1.gates.countP isAddGate =
        c.gates.countP isAddGate + pairCount v ∧
      (uniqOuter c v).1.gates.countP isFusedNonzeroGate =
        c.gates.countP isFusedNonzeroGate + pairCount v := by
  induction v with
  | nil =>
    intro c _
    exact ⟨rfl, ⟨[], by simp [uniqOuter]⟩, by simp [uniqOuter, pairCount],
      by simp [uniqOuter, pairCount], by simp [uniqOuter, pairCount]⟩
  | cons vi rest ih =>
    intro c hp
    rw [List.pairwise_cons] at hp
    obtain ⟨hvi, hrest⟩ := hp
    obtain ⟨ho1, ⟨u1, hu1⟩, hl1, ha1, hf1⟩ := uniqInner_spec rest c vi hvi
    have hpair : uniqInner c vi rest = ((uniqInner c vi rest).1, GOutcome.ok) := by
      have : uniqInner c vi rest =
          ((uniqInner c vi rest).1, (uniqInner c vi rest).2) := rfl
      rw [this, ho1]
    obtain ⟨ho2, ⟨u2, hu2⟩, hl2, ha2, hf2⟩ := ih (uniqInner c vi rest).1 hrest
    have hred : uniqOuter c (vi :: rest) = uniqOuter (uniqInner c vi rest).1 rest := by
      simp only [uniqOuter]
      rw [hpair]
    rw [hred]
    refine ⟨ho2, ⟨u1 ++ u2, by rw [hu2, hu1, List.append_assoc]⟩, ?_, ?_, ?_⟩
    · rw [hl2, hl1]
      show _ = c.gates.length + 4 * (rest.length + pairCount rest)
      omega
    · rw [ha2, ha1]
      show _ = c.gates.countP isAddGate + (rest.length + pairCount rest)
      omega
    · rw [hf2, hf1]
      show _ = c.gates.countP isFusedNonzeroGate + (rest.length + pairCount rest)
      omega

theorem pairCount_eq {α : Type} (v : List α) :
    pairCount v = v.length * (v.length - 1) / 2 := by
  have h2 : 2 * pairCount v = v.length * (v.length - 1) := by
    induction v with
    | nil => rfl
    | cons x rest ih =>
      show 2 * (rest.length + pairCount rest) =
        (x :: rest).length * ((x :: rest).length - 1)
      simp only [List.length_cons, Nat.add_sub_cancel]
      calc 2 * (rest.length + pairCount rest)
          = 2 * rest.length + 2 * pairCount rest := by ring
        _ = 2 * rest.length + rest.length * (rest.length - 1) := by rw [ih]
        _ = (rest.length + 1) * rest.length := by
            cases rest with
            | nil => rfl
            | cons y r' =>
              simp only [List.length_cons, Nat.add_sub_cancel]
              ring
  omega

end UniqInfra

section C2Proof

variable {F : Type} [Field F] [DecidableEq F]

/-- C2: for every vector of at least 2 allocated scalars,
`set_uniqueness_gadget` returns `NonExistingInverse` exactly when some
pair `i < j` has equal scalars; when all elements are pairwise distinct
it returns `Ok` having appended 4 gates per processed pair — all
`n(n-1)/2` of them — among which one tying linear add gate and one
nonzero-enforcing fused gate per pair. -/
theorem set_uniqueness_spec (c : Composer F) (v : List (AllocatedScalar F))
    (hlen : 2 ≤ v.length) :
    ((set_uniqueness_gadget c v).2 = GOutcome.err GadgetsError.NonExistingInverse ↔
      ∃ (i j : Fin v.length), i < j ∧ (v.get i).scalar = (v.get j).scalar) ∧
    (v.Pairwise (fun a b => a.scalar ≠ b.scalar) →
      (set_uniqueness_gadget c v).2 = GOutcome.ok ∧
      (set_uniqueness_gadget c v).1.gates.length =
        c.gates.length + 4 * (v.length * (v.length - 1) / 2) ∧
      (set_uniqueness_gadget c v).1.gates.countP isAddGate =
        c.gates.countP isAddGate + v.length * (v.length - 1) / 2 ∧
      (set_uniqueness_gadget c v).1.gates.countP isFusedNonzeroGate =
        c.gates.countP isFusedNonzeroGate + v.length * (v.length - 1) / 2) := by
  have hnot : ¬ v.length < 2 := Nat.not_lt.mpr hlen
  have hred : set_uniqueness_gadget c v = uniqOuter c v := by
    unfold set_uniqueness_gadget
    rw [if_neg hnot]
  rw [hred]
  constructor
  · rw [uniqOuter_outcome]
    constructor
    · intro hc
      by_cases hp : v.Pairwise (fun a b => a.scalar ≠ b.scalar)
      · rw [if_pos hp] at hc
        exact absurd hc (by simp)
      · rw [List.pairwise_iff_get] at hp
        push_neg at hp
        obtain ⟨i, j, hij, heq⟩ := hp
        exact ⟨i, j, hij, heq⟩
    · rintro ⟨i, j, hij, heq⟩
      have hp : ¬ v.Pairwise (fun a b => a.scalar ≠ b.scalar) := by
        rw [List.pairwise_iff_get]
        push_neg
        exact ⟨i, j, hij, heq⟩
      rw [if_neg hp]
  · intro hp
    obtain ⟨ho, _, hl, ha, hf⟩ := uniqOuter_spec v c hp
    rw [← pairCount_eq]
    exact ⟨ho, hl, ha, hf⟩

theorem set_uniqueness_spec_witness :
    (set_uniqueness_gadget (Composer.init : Composer (ZMod 11))
      [⟨1, 1⟩, ⟨2, 2⟩]).2 = GOutcome.ok :=
  ((set_uniqueness_spec Composer.init [⟨1, 1⟩, ⟨2, 2⟩] (by decide)).2 (by decide)).1

end C2Proof

section C8Proof

variable {F : Type} [Field F] [DecidableEq F]

/-- C8: length-contract violations fail fast before any constraint is
emitted and are never reported as `NonExistingInverse`:
`vector_product_gadget` called with vectors of different lengths and
`set_uniqueness_gadget` called with fewer than 2 elements both halt
immediately (a panic), returning the composer untouched. -/
theorem length_contract_fail_fast :
    (∀ (c : Composer F) (a b : List (AllocatedScalar F)) (val : AllocatedScalar F),
      a.length ≠ b.length →
        vector_product_gadget c a b val = (c, GOutcome.panicked)) ∧
    (∀ (c : Composer F) (v : List (AllocatedScalar F)), v.length < 2 →
      set_uniqueness_gadget c v = (c, GOutcome.panicked)) := by
  constructor
  · intro c a b val h
    unfold vector_product_gadget
    rw [if_neg h]
  · intro c v h
    unfold set_uniqueness_gadget
    rw [if_pos h]

theorem length_contract_fail_fast_witness :
    vector_product_gadget (Composer.init : Composer (ZMod 11)) [⟨1, 1⟩] [] ⟨1, 1⟩ =
        (Composer.init, GOutcome.panicked) ∧
      set_uniqueness_gadget (Composer.init : Composer (ZMod 11)) [⟨1, 1⟩] =
        (Composer.init, GOutcome.panicked) :=
  ⟨length_contract_fail_fast.1 Composer.init [⟨1, 1⟩] [] ⟨1, 1⟩ (by decide),
    length_contract_fail_fast.2 Composer.init [⟨1, 1⟩] (by decide)⟩

end C8Proof

section C9Proof

variable {F : Type} [Field F] [DecidableEq F]

theorem vnm_cons_eq (c : Composer F) (e : F) (rest : List F)
    (val : AllocatedScalar F) (hd : e - val.scalar = 0) :
    vector_non_membership_gadget c (e :: rest) val =
      ((AllocatedScalar.allocate
          ((c.addInput e).1.constrainToConstant (c.addInput e).2 e none)
          (e - val.scalar)).1,
        GOutcome.err GadgetsError.NonExistingInverse) := by
  simp only [vector_non_membership_gadget]
  rw [if_pos hd]

theorem vnm_ext (v : List F) :
    ∀ (c : Composer F) (val : AllocatedScalar F),
      Composer.Ext c (vector_non_membership_gadget c v val).1 := by
  induction v with
  | nil => intro c val; exact Ext_refl c
  | cons e rest ih =>
    intro c val
    by_cases hd : e - val.scalar = 0
    · rw [vnm_cons_eq c e rest val hd]
      exact Ext_trans (Ext_addInput c e)
        (Ext_trans (Ext_constrainToConstant _ _ _ _) (Ext_allocate _ _))
    · simp only [vector_non_membership_gadget]
      rw [if_neg hd]
      refine Ext_trans ?_ (ih _ val)
      apply Ext_polyGate'
      apply Ext_addWitness'
      apply Ext_assertEqual'
      apply Ext_add'
      apply Ext_allocate'
      apply Ext_allocate'
      apply Ext_constrainToConstant'
      apply Ext_addInput'
      exact Ext_refl c

theorem vnm_err_detail (v : List F) :
    ∀ (c : Composer F) (val : AllocatedScalar F),
      (vector_non_membership_gadget c v val).2 =
          GOutcome.err GadgetsError.NonExistingInverse →
      ∃ k, ∃ hk : k < v.length, v.get ⟨k, hk⟩ = val.scalar ∧
        (vector_non_membership_gadget c v val).1.gates.getLast? =
          some (Gate.fixed
            ((vector_non_membership_gadget c v val).1.witnesses.length - 2)
            (v.get ⟨k, hk⟩) 0) ∧
        (vector_non_membership_gadget c v val).1.witnesses.getLast? = some 0 := by
  induction v with
  | nil =>
    intro c val h
    simp [vector_non_membership_gadget] at h
  | cons e rest ih =>
    intro c val herr
    by_cases hd : e - val.scalar = 0
    · have heq : e = val.scalar := sub_eq_zero.mp hd
      rw [vnm_cons_eq c e rest val hd]
      dsimp only
      have hW : ((AllocatedScalar.allocate
          ((c.addInput e).1.constrainToConstant (c.addInput e).2 e none)
          (e - val.scalar)).1).witnesses.length = c.witnesses.length + 2 := by
        simp [AllocatedScalar.allocate, Composer.addInput,
          Composer.constrainToConstant, Composer.appendGate]
      refine ⟨0, by simp, heq, ?_, ?_⟩
      · rw [hW]
        have hg : ((AllocatedScalar.allocate
            ((c.addInput e).1.constrainToConstant (c.addInput e).2 e none)
            (e - val.scalar)).1).gates =
            c.gates ++ [Gate.fixed c.witnesses.length e 0] := rfl
        rw [hg]
        rw [List.getLast?_concat]
        have h2 : c.witnesses.length + 2 - 2 = c.witnesses.length := by omega
        rw [h2]
        rfl
      · have hw : ((AllocatedScalar.allocate
            ((c.addInput e).1.constrainToConstant (c.addInput e).2 e none)
            (e - val.scalar)).1).witnesses =
            (c.witnesses ++ [e]) ++ [e - val.scalar] := rfl
        rw [hw, List.getLast?_concat, hd]
    · simp only [vector_non_membership_gadget] at herr ⊢
      rw [if_neg hd] at herr ⊢
      obtain ⟨k, hk, h1, h2, h3⟩ := ih _ val herr
      exact ⟨k + 1, Nat.succ_lt_succ hk, h1, h2, h3⟩

theorem diffCheckGates_ext (c : Composer F) (a b dv dvi : Nat) :
    Composer.Ext c (diffCheckGates c a b dv dvi) := by
  show Composer.Ext c (Composer.polyGate _ _ _ _ _ _ _ _ _ _)
  apply Ext_polyGate'
  apply Ext_addWitness'
  apply Ext_assertEqual'
  apply Ext_add'
  exact Ext_refl c

theorem uniqInner_ext (rest : List (AllocatedScalar F)) :
    ∀ (c : Composer F) (vi : AllocatedScalar F),
      Composer.Ext c (uniqInner c vi rest).1 := by
  induction rest with
  | nil => intro c vi; exact Ext_refl c
  | cons vj rest ih =>
    intro c vi
    by_cases hd : vi.scalar - vj.scalar = 0
    · rw [uniqInner_cons_eq c vi vj rest hd]
      exact Ext_allocate _ _
    · rw [uniqInner_cons_ne c vi vj rest hd]
      refine Ext_trans ?_ (ih _ vi)
      refine Ext_trans ?_ (diffCheckGates_ext _ _ _ _ _)
      apply Ext_allocate'
      apply Ext_allocate'
      exact Ext_refl c

theorem uniqOuter_ext (v : List (AllocatedScalar F)) :
    ∀ c : Composer F, Composer.Ext c (uniqOuter c v).1 := by
  induction v with
  | nil => intro c; exact Ext_refl c
  | cons vi rest ih =>
    intro c
    have hin := uniqInner_ext rest c vi
    rcases h : uniqInner c vi rest with ⟨c1, o⟩
    rw [h] at hin
    simp only [uniqOuter]
    rw [h]
    cases o with
    | ok => exact Ext_trans hin (ih c1)
    | err e => exact hin
    | panicked => exact hin

theorem uniqInner_err_last (rest : List (AllocatedScalar F)) :
    ∀ (c : Composer F) (vi : AllocatedScalar F),
      (uniqInner c vi rest).2 = GOutcome.err GadgetsError.NonExistingInverse →
      (uniqInner c vi rest).1.witnesses.getLast? = some 0 := by
  induction rest with
  | nil =>
    intro c vi h
    simp [uniqInner] at h
  | cons vj rest ih =>
    intro c vi herr
    by_cases hd : vi.scalar - vj.scalar = 0
    · rw [uniqInner_cons_eq c vi vj rest hd]
      dsimp only
      have hw : ((AllocatedScalar.allocate c (vi.scalar - vj.scalar)).1).witnesses =
          c.witnesses ++ [vi.scalar - vj.scalar] := rfl
      rw [hw, List.getLast?_concat, hd]
    · rw [uniqInner_cons_ne c vi vj rest hd] at herr ⊢
      exact ih _ vi herr

theorem uniqOuter_err_last (v : List (AllocatedScalar F)) :
    ∀ c : Composer F,
      (uniqOuter c v).2 = GOutcome.err GadgetsError.NonExistingInverse →
      (uniqOuter c v).1.witnesses.getLast? = some 0 := by
  induction v with
  | nil =>
    intro c h
    simp [uniqOuter] at h
  | cons vi rest ih =>
    intro c herr
    have hin := uniqInner_err_last rest c vi
    rcases h : uniqInner c vi rest with ⟨c1, o⟩
    rw [h] at hin
    simp only [uniqOuter] at herr ⊢
    rw [h] at herr ⊢
    cases o with
    | ok => exact ih c1 herr
    | err e =>
      cases e
      exact hin rfl
    | panicked => simp at herr

/-- C9: when `vector_non_membership_gadget` or `set_uniqueness_gadget`
returns `NonExistingInverse`, every constraint and witness allocation
appended before the failing inversion remains in the composer: both
gadgets only ever append to the composer (no rollback, in every
outcome), and on the error path the non-membership composer still ends
with the constant-fixing gate of the offending element followed by the
allocation of its zero difference, while the uniqueness composer still
ends with the allocated zero difference. -/
theorem gadget_no_rollback :
    (∀ (c : Composer F) (v : List F) (val : AllocatedScalar F),
      ∃ t u, (vector_non_membership_gadget c v val).1.gates = c.gates ++ t ∧
        (vector_non_membership_gadget c v val).1.witnesses = c.witnesses ++ u) ∧
    (∀ (c : Composer F) (v : List (AllocatedScalar F)),
      ∃ t u, (set_uniqueness_gadget c v).1.gates = c.gates ++ t ∧
        (set_uniqueness_gadget c v).1.witnesses = c.witnesses ++ u) ∧
    (∀ (c : Composer F) (v : List F) (val : AllocatedScalar F),
      (vector_non_membership_gadget c v val).2 =
          GOutcome.err GadgetsError.NonExistingInverse →
        ∃ k, ∃ hk : k < v.length, v.get ⟨k, hk⟩ = val.scalar ∧
          (vector_non_membership_gadget c v val).1.gates.getLast? =
            some (Gate.fixed
              ((vector_non_membership_gadget c v val).1.witnesses.length - 2)
              (v.get ⟨k, hk⟩) 0) ∧
          (vector_non_membership_gadget c v val).1.witnesses.getLast? = some 0) ∧
    (∀ (c : Composer F) (v : List (AllocatedScalar F)),
      (set_uniqueness_gadget c v).2 =
          GOutcome.err GadgetsError.NonExistingInverse →
        (set_uniqueness_gadget c v).1.witnesses.getLast? = some 0) := by
  refine ⟨?_, ?_, ?_, ?_⟩
  · intro c v val
    obtain ⟨⟨u, hu⟩, ⟨t, ht⟩⟩ := vnm_ext v c val
    exact ⟨t, u, ht, hu⟩
  · intro c v
    unfold set_uniqueness_gadget
    by_cases h : v.length < 2
    · rw [if_pos h]
      exact ⟨[], [], by simp, by simp⟩
    · rw [if_neg h]
      obtain ⟨⟨u, hu⟩, ⟨t, ht⟩⟩ := uniqOuter_ext v c
      exact ⟨t, u, ht, hu⟩
  · intro c v val herr
    exact vnm_err_detail v c val herr
  · intro c v herr
    unfold set_uniqueness_gadget at herr ⊢
    by_cases h : v.length < 2
    · rw [if_pos h] at herr
      simp at herr
    · rw [if_neg h] at herr ⊢
      exact uniqOuter_err_last v c herr

theorem gadget_no_rollback_witness :
    (∃ k, ∃ hk : k < ([4, 3] : List (ZMod 11)).length,
      ([4, 3] : List (ZMod 11)).get ⟨k, hk⟩ =
        (⟨3, 1⟩ : AllocatedScalar (ZMod 11)).scalar ∧
      (vector_non_membership_gadget (⟨[0, 3], []⟩ : Composer (ZMod 11)) [4, 3]
        ⟨3, 1⟩).1.gates.getLast? =
        some (Gate.fixed
          ((vector_non_membership_gadget (⟨[0, 3], []⟩ : Composer (ZMod 11)) [4, 3]
            ⟨3, 1⟩).1.witnesses.length - 2)
          (([4, 3] : List (ZMod 11)).get ⟨k, hk⟩) 0) ∧
      (vector_non_membership_gadget (⟨[0, 3], []⟩ : Composer (ZMod 11)) [4, 3]
        ⟨3, 1⟩).1.witnesses.getLast? = some 0) ∧
    (set_uniqueness_gadget (⟨[0, 1, 1], []⟩ : Composer (ZMod 11))
      [⟨1, 1⟩, ⟨1, 2⟩]).1.witnesses.getLast? = some 0 :=
  ⟨gadget_no_rollback.2.2.1 ⟨[0, 3], []⟩ [4, 3] ⟨3, 1⟩ (by decide),
    gadget_no_rollback.2.2.2 ⟨[0, 1, 1], []⟩ [⟨1, 1⟩, ⟨1, 2⟩] (by decide)⟩

end C9Proof
